import Mathlib

/-!
Verification development for the `ai-news` pipeline
(`service/news_summary.py`): a scheduled batch that ingests RSS feeds,
filters AI-related entries via an external classification call, summarizes
them via an external generation call, and delivers the results to a Slack
webhook, with a persisted "processed news" ledger for deduplication.

Shallow embedding conventions:
* The Python dict `processed_news : dict[str, int]` is modelled as an
  insertion-ordered association list `Ledger := List (String × Int)` with
  dict-style insert (overwrite in place, append when fresh).
* Time is modelled in whole Unix seconds; `datetime.now()` within one run
  is a single instant `now : Int` (the code's per-entry re-reads of the
  clock only affect the stored timestamps, never control flow).
* External effects (feedparser, the OpenAI chat-completions calls and the
  subsequent JSON parse/validation, `requests.post`) are oracles passed
  as function arguments; `Except Unit _` models a Python call that may
  raise (`.error ()` = the `try` block raised, from the call itself or
  from parsing/validating its response).
* Python truthiness of `os.getenv` results is `configured : Option String
  → Bool` (`None` and `""` are falsy).
* `str.strip()` is `pyStrip`, dropping from both ends exactly the code
  points CPython's `str.strip()` treats as whitespace (its
  `_PyUnicode_IsWhitespace` table, including U+3000 and the other Unicode
  spaces).
-/

namespace NewsPipeline

/-- The persisted ledger: item identifier (link) → last-seen Unix timestamp,
in insertion order, mirroring the Python dict `processed_news`. -/
abbrev Ledger := List (String × Int)

/-- Membership test, `link in processed_news`. -/
def Ledger.contains (pn : Ledger) (k : String) : Bool :=
  pn.any (fun p => p.1 == k)

/-- Dict assignment `processed_news[k] = t`: overwrites in place if the key
exists, otherwise appends (Python dicts preserve insertion order). -/
def Ledger.insert (pn : Ledger) (k : String) (t : Int) : Ledger :=
  if pn.contains k then
    pn.map (fun p => if p.1 == k then (k, t) else p)
  else
    pn ++ [(k, t)]

/-- Dict lookup `processed_news.get(k)`. -/
def Ledger.lookup (pn : Ledger) (k : String) : Option Int :=
  match pn with
  | [] => none
  | (k', v) :: rest => if k' == k then some v else Ledger.lookup rest k

/-- `clean_old_news(processed_news, days=7)`: keeps exactly the entries
whose timestamp is strictly greater than `now - days*86400`
(`threshold_timestamp = int((datetime.now() - timedelta(days=days)).timestamp())`,
and the filter keeps `v > threshold_timestamp`). -/
def clean_old_news (processed_news : Ledger) (now : Int) (days : Int) : Ledger :=
  processed_news.filter (fun p => decide (p.2 > now - days * 86400))

/-- A parsed feed entry as the code consumes it: `entry.get("link")` may be
absent (`none`), `title` is accessed as an attribute, description/content
via `.get` with defaults. -/
structure Entry where
  link : Option String
  title : String
  description : Option String
  content : Option String
deriving DecidableEq

/-- The result of `feedparser.parse`: a bozo flag plus entries. -/
structure ParsedFeed where
  bozo : Bool
  entries : List Entry
deriving DecidableEq

/-- Python truthiness of an `os.getenv` result: `None` and `""` are falsy. -/
def configured : Option String → Bool
  | none => false
  | some s => s != ""

/-- Inner loop of `get_rss_feeds` over one feed's entries: an entry with a
truthy link not yet in the ledger is appended to the output and immediately
inserted into the ledger (before the next entry is examined). -/
def ingestEntries (now : Int) : List Entry → Ledger → List Entry × Ledger
  | [], pn => ([], pn)
  | e :: rest, pn =>
    match e.link with
    | none => ingestEntries now rest pn
    | some link =>
      if link != "" && !(pn.contains link) then
        let step := ingestEntries now rest (pn.insert link now)
        (e :: step.1, step.2)
      else
        ingestEntries now rest pn

/-- `get_rss_feeds(urls, processed_news)`: for each URL, `feedparser.parse`
may raise (caught and logged) or return a bozo feed (logged, skipped);
otherwise its entries are ingested against the (mutated) ledger. Returns
the collected new entries and the final ledger. -/
def get_rss_feeds (fetch : String → Except Unit ParsedFeed) (now : Int) :
    List String → Ledger → List Entry × Ledger
  | [], pn => ([], pn)
  | url :: rest, pn =>
    match fetch url with
    | .error _ => get_rss_feeds fetch now rest pn
    | .ok feed =>
      if feed.bozo then
        get_rss_feeds fetch now rest pn
      else
        let step := ingestEntries now feed.entries pn
        let tail := get_rss_feeds fetch now rest step.2
        (step.1 ++ tail.1, tail.2)

/-- The code points Python's default `str.strip()` removes (CPython's
`_PyUnicode_IsWhitespace` table): the ASCII whitespace characters and
separators 0x09–0x0D, 0x1C–0x1F, 0x20, plus the Unicode whitespace
characters NEL, NBSP, OGHAM SPACE MARK, the EN QUAD–HAIR SPACE range,
LINE/PARAGRAPH SEPARATOR, NARROW NBSP, MEDIUM MATHEMATICAL SPACE, and
IDEOGRAPHIC SPACE (U+3000, the ordinary Japanese space). -/
def pythonWhitespace : List Nat :=
  [0x09, 0x0A, 0x0B, 0x0C, 0x0D, 0x1C, 0x1D, 0x1E, 0x1F, 0x20, 0x85, 0xA0,
   0x1680, 0x2000, 0x2001, 0x2002, 0x2003, 0x2004, 0x2005, 0x2006, 0x2007,
   0x2008, 0x2009, 0x200A, 0x2028, 0x2029, 0x202F, 0x205F, 0x3000]

/-- Whether `str.strip()` removes this character. -/
def isPySpace (c : Char) : Bool :=
  pythonWhitespace.contains c.toNat

/-- Python `s.strip()`: drop leading and trailing whitespace. -/
def pyStrip (s : String) : String :=
  ⟨((s.data.dropWhile isPySpace).reverse.dropWhile isPySpace).reverse⟩

/-- One iteration of the classifier loop in `filter_ai_news`: the external
call is issued for every entry; on success the entry is kept iff the
response content, `.strip()`ped, equals `"1"`; a raised call is logged and
the entry dropped. Returns (kept entries, entries for which a call was
issued). -/
def filterLoop (classify : Entry → Except Unit String) :
    List Entry → List Entry × List Entry
  | [] => ([], [])
  | e :: rest =>
    let step := filterLoop classify rest
    match classify e with
    | .ok content =>
      if pyStrip content == "1" then (e :: step.1, e :: step.2)
      else (step.1, e :: step.2)
    | .error _ => (step.1, e :: step.2)

/-- `filter_ai_news(feed_entries)`: with no (truthy) `OPENAI_API_KEY` it
logs and returns `[]` without issuing any call; otherwise it runs the
per-entry classification loop. Second component: the external calls made. -/
def filter_ai_news (apiKey : Option String) (classify : Entry → Except Unit String)
    (feed_entries : List Entry) : List Entry × List Entry :=
  if !(configured apiKey) then ([], [])
  else filterLoop classify feed_entries

/-- `SummaryPoint` pydantic model. -/
structure SummaryPoint where
  title : String
  description : String
deriving DecidableEq

/-- `NewsSummary` pydantic model: overall summary plus ordered key points. -/
structure NewsSummary where
  overall_summary : String
  key_points : List SummaryPoint
deriving DecidableEq

/-- The `key_points_text` accumulation in `format_notification`:
`f"{i}. *{point.title}* ：{point.description}\n"` for `i` counting from 1. -/
def keyPointsTextFrom (i : Nat) : List SummaryPoint → String
  | [] => ""
  | p :: rest =>
    toString i ++ ". *" ++ p.title ++ "* ：" ++ p.description ++ "\n" ++
      keyPointsTextFrom (i + 1) rest

/-- `format_notification(news_summary)`: the template
"\x60\x60\x60\n{overall_summary}\n\x60\x60\x60\n{key_points}" with
`key_points = key_points_text.strip()`. -/
def format_notification (news_summary : NewsSummary) : String :=
  "```\n" ++ news_summary.overall_summary ++ "\n```\n" ++
    pyStrip (keyPointsTextFrom 1 news_summary.key_points)

/-- One output dict appended by `summarize_news`. -/
structure SummaryOut where
  title : String
  summary : String
  link : String
deriving DecidableEq

/-- Inner loop of `summarize_news`: for each entry the generation call is
issued (`gen` bundles the chat-completions call, `json.loads`, and the
`NewsSummary(**data)` validation; `.error ()` when any of them raises).
On success the output dict is appended (reading `entry.link`, which raises
— caught — when the entry has no link) and the ledger is refreshed at the
link; on failure the entry is skipped with no ledger update. Returns
(summaries, ledger, entries for which a call was issued). -/
def summarizeLoop (now : Int) (gen : Entry → Except Unit NewsSummary) :
    List Entry → Ledger → List SummaryOut × Ledger × List Entry
  | [], pn => ([], pn, [])
  | e :: rest, pn =>
    match gen e with
    | .error _ =>
      let step := summarizeLoop now gen rest pn
      (step.1, step.2.1, e :: step.2.2)
    | .ok ns =>
      match e.link with
      | none =>
        let step := summarizeLoop now gen rest pn
        (step.1, step.2.1, e :: step.2.2)
      | some l =>
        let out : SummaryOut := ⟨e.title, format_notification ns, l⟩
        let step := summarizeLoop now gen rest (pn.insert l now)
        (out :: step.1, step.2.1, e :: step.2.2)

/-- `summarize_news(news_entries, processed_news)`: with no (truthy)
`OPENAI_API_KEY` it logs and returns `[]` without touching the ledger or
issuing any call; otherwise it runs the per-entry summarization loop. -/
def summarize_news (apiKey : Option String) (now : Int)
    (gen : Entry → Except Unit NewsSummary) (news_entries : List Entry)
    (processed_news : Ledger) : List SummaryOut × Ledger × List Entry :=
  if !(configured apiKey) then ([], processed_news, [])
  else summarizeLoop now gen news_entries processed_news

/-- The JSON body posted for one summary. -/
structure SlackMessage where
  text : String
  unfurl_links : Bool
deriving DecidableEq

/-- Diagnostics `send_to_slack` can log. -/
inductive SlackLog where
  | noWebhook
  | failedStatus (code : Nat)
  | transportError
deriving DecidableEq

/-- The message dict built for one summary:
`{"text": f"*<{link}|{title}>*\n{summary}", "unfurl_links": True}`. -/
def renderSlackMessage (s : SummaryOut) : SlackMessage :=
  ⟨"*<" ++ s.link ++ "|" ++ s.title ++ ">*\n" ++ s.summary, true⟩

/-- The per-summary loop of `send_to_slack`: each message is posted once
(`post` returns the response status, or `.error ()` for a raised transport
error, which is caught and logged); a status other than 200 is logged as a
failure; the loop always continues. Returns (posted messages, logs). -/
def slackLoop (post : SlackMessage → Except Unit Nat) :
    List SummaryOut → List SlackMessage × List SlackLog
  | [] => ([], [])
  | s :: rest =>
    let msg := renderSlackMessage s
    let step := slackLoop post rest
    match post msg with
    | .ok code =>
      if code != 200 then (msg :: step.1, SlackLog.failedStatus code :: step.2)
      else (msg :: step.1, step.2)
    | .error _ => (msg :: step.1, SlackLog.transportError :: step.2)

/-- `send_to_slack(summaries, webhook_url)`: with a falsy webhook URL it
logs and returns without posting anything; otherwise each summary is posted
independently. -/
def send_to_slack (post : SlackMessage → Except Unit Nat)
    (summaries : List SummaryOut) (webhook_url : Option String) :
    List SlackMessage × List SlackLog :=
  if !(configured webhook_url) then ([], [SlackLog.noWebhook])
  else slackLoop post summaries

/-- The state of the persisted store `service/processed_news.json`. -/
inductive StoreState where
  | missing
  | present (content : String)
deriving DecidableEq

/-- `load_processed_news()`: if the file exists, `json.load` it (`parse`
models `json.load`; `none` = it raises, and nothing catches that); if the
file does not exist, return `{}`. -/
def load_processed_news (parse : String → Option Ledger) (store : StoreState) :
    Except Unit Ledger :=
  match store with
  | .missing => .ok []
  | .present content =>
    match parse content with
    | some pn => .ok pn
    | none => .error ()

/-- The hard-coded feed source list in `main`. -/
def rss_urls : List String :=
  [ "https://qiita.com/popular-items/feed",
    "https://gigazine.net/news/rss_2.0/",
    "https://b.hatena.ne.jp/entrylist/it.rss",
    "https://dev.classmethod.jp/feed/",
    "https://news.microsoft.com/ja-jp/feed/",
    "https://aws.amazon.com/jp/about-aws/whats-new/recent/feed/",
    "https://zenn.dev/feed" ]

/-- Externally visible side effects of one run, in order. -/
inductive Event where
  | loadLedger
  | fetchFeed (url : String)
  | classifyCall (e : Entry)
  | summarizeCall (e : Entry)
  | saveLedger (pn : Ledger)
  | deliver (m : SlackMessage)
deriving DecidableEq

/-- The run environment: configuration plus the external-world oracles. -/
structure Env where
  slack_webhook_url : Option String
  openai_api_key : Option String
  store : StoreState
  parse : String → Option Ledger
  fetch : String → Except Unit ParsedFeed
  classify : Entry → Except Unit String
  gen : Entry → Except Unit NewsSummary
  post : SlackMessage → Except Unit Nat
  now : Int

/-- `main()`: abort (only a log) if `SLACK_WEBHOOK_URL` is falsy; otherwise
load the ledger, prune it (7 days), ingest the feeds, classify, summarize,
save the ledger, and deliver. Returns the ordered trace of externally
visible effects; if `json.load` raises during the load the run dies right
there, having only touched the store. -/
def main (env : Env) : List Event :=
  if !(configured env.slack_webhook_url) then []
  else
    match load_processed_news env.parse env.store with
    | .error _ => [Event.loadLedger]
    | .ok processed₀ =>
      let processed₁ := clean_old_news processed₀ env.now 7
      let ingested := get_rss_feeds env.fetch env.now rss_urls processed₁
      let filtered := filter_ai_news env.openai_api_key env.classify ingested.1
      let summarized := summarize_news env.openai_api_key env.now env.gen
        filtered.1 ingested.2
      let delivered := send_to_slack env.post summarized.1 env.slack_webhook_url
      Event.loadLedger ::
        rss_urls.map Event.fetchFeed ++
        filtered.2.map Event.classifyCall ++
        summarized.2.2.map Event.summarizeCall ++
        [Event.saveLedger summarized.2.1] ++
        delivered.1.map Event.deliver

/-- Spec-side rendering of one key-point line, `"N. *{title}* ：{description}"`
(`N` counting from 1), used to compare `format_notification` against the
spec's format invariant. -/
def specLine (i : Nat) (p : SummaryPoint) : String :=
  toString i ++ ". *" ++ p.title ++ "* ：" ++ p.description

/-- Spec-side numbered key-point lines, in order. -/
def specLines (i : Nat) : List SummaryPoint → List String
  | [] => []
  | p :: rest => specLine i p :: specLines (i + 1) rest

/-- Spec-side "joined by newlines with no trailing blank line". -/
def specJoinLines : List String → String
  | [] => ""
  | [a] => a
  | a :: rest => a ++ "\n" ++ specJoinLines rest

/-- Spec-side notification body: the synopsis as a code block followed by
the numbered key-point lines joined by newlines. -/
def specNotificationBody (ns : NewsSummary) : String :=
  "```\n" ++ ns.overall_summary ++ "\n```\n" ++
    specJoinLines (specLines 1 ns.key_points)

/-- Whether a string is empty or ends in a non-whitespace character (so
Python's strip cannot shorten its tail). -/
def lastCharOk (s : String) : Bool :=
  match s.data.getLast? with
  | none => true
  | some c => !isPySpace c

/-! ### Shared ledger lemmas -/

theorem Ledger.contains_iff (pn : Ledger) (k : String) :
    pn.contains k = true ↔ ∃ p ∈ pn, p.1 = k := by
  simp [Ledger.contains, List.any_eq_true, beq_iff_eq]

theorem Ledger.contains_insert_self (pn : Ledger) (k : String) (t : Int) :
    (pn.insert k t).contains k = true := by
  unfold Ledger.insert
  split
  · rename_i h
    rcases (Ledger.contains_iff pn k).mp h with ⟨p, hp, hpk⟩
    refine (Ledger.contains_iff _ k).mpr ⟨(k, t), List.mem_map.mpr ⟨p, hp, ?_⟩, rfl⟩
    simp [hpk]
  · exact (Ledger.contains_iff _ k).mpr ⟨(k, t), by simp, rfl⟩

theorem Ledger.contains_insert_mono (pn : Ledger) (k k' : String) (t : Int)
    (h : pn.contains k = true) : (pn.insert k' t).contains k = true := by
  by_cases hkk : k = k'
  · subst hkk; exact Ledger.contains_insert_self pn k t
  · rcases (Ledger.contains_iff pn k).mp h with ⟨p, hp, hpk⟩
    unfold Ledger.insert
    split
    · refine (Ledger.contains_iff _ k).mpr ⟨p, List.mem_map.mpr ⟨p, hp, ?_⟩, hpk⟩
      have : ¬ (p.1 == k') = true := by
        simp only [beq_iff_eq, hpk]; exact hkk
      simp [this]
    · exact (Ledger.contains_iff _ k).mpr ⟨p, List.mem_append.mpr (Or.inl hp), hpk⟩

theorem Ledger.lookup_contains (pn : Ledger) (k : String) (t : Int)
    (h : pn.lookup k = some t) : pn.contains k = true := by
  induction pn with
  | nil => simp [Ledger.lookup] at h
  | cons p rest ih =>
    rw [Ledger.lookup] at h
    by_cases hk : (p.1 == k) = true
    · exact (Ledger.contains_iff _ k).mpr ⟨p, by simp, by simpa [beq_iff_eq] using hk⟩
    · simp only [hk, if_neg] at h
      rcases (Ledger.contains_iff rest k).mp (ih (by simpa [hk] using h)) with ⟨q, hq, hqk⟩
      exact (Ledger.contains_iff _ k).mpr ⟨q, by simp [hq], hqk⟩

theorem Ledger.lookup_map_overwrite (pn : Ledger) (k k' : String) (t : Int)
    (h : k ≠ k') :
    Ledger.lookup (pn.map fun p => if p.1 == k' then (k', t) else p) k =
      pn.lookup k := by
  induction pn with
  | nil => rfl
  | cons p rest ih =>
    obtain ⟨a, b⟩ := p
    by_cases hp : (a == k') = true
    · have hne : ¬ (k' == k) = true := by
        simp only [beq_iff_eq]; exact fun hh => h hh.symm
      have hpk : ¬ (a == k) = true := by
        simp only [beq_iff_eq] at hp ⊢
        rw [hp]; exact fun hh => h hh.symm
      simp only [List.map_cons]
      rw [if_pos hp, Ledger.lookup, Ledger.lookup, if_neg hne, if_neg hpk]
      exact ih
    · simp only [List.map_cons]
      rw [if_neg hp, Ledger.lookup, Ledger.lookup]
      by_cases hk : (a == k) = true
      · rw [if_pos hk, if_pos hk]
      · rw [if_neg hk, if_neg hk]
        exact ih

theorem Ledger.lookup_append_single_ne (pn : Ledger) (k k' : String) (t : Int)
    (h : k ≠ k') :
    Ledger.lookup (pn ++ [(k', t)]) k = pn.lookup k := by
  induction pn with
  | nil =>
    have hne : ¬ (k' == k) = true := by
      simp only [beq_iff_eq]; exact fun hh => h hh.symm
    simp [Ledger.lookup, hne]
  | cons p rest ih =>
    by_cases hp : (p.1 == k) = true
    · simp [Ledger.lookup, hp]
    · simp [Ledger.lookup, hp, ih]

theorem Ledger.lookup_insert_ne (pn : Ledger) (k k' : String) (t : Int)
    (h : k ≠ k') : (pn.insert k' t).lookup k = pn.lookup k := by
  unfold Ledger.insert
  split
  · exact Ledger.lookup_map_overwrite pn k k' t h
  · exact Ledger.lookup_append_single_ne pn k k' t h

/-! ### Ingestion lemmas -/

theorem ingestEntries_excludes (now : Int) (es : List Entry) (pn : Ledger)
    (id : String) (h : pn.contains id = true) :
    (∀ e ∈ (ingestEntries now es pn).1, e.link ≠ some id) ∧
      ((ingestEntries now es pn).2).contains id = true := by
  induction es generalizing pn with
  | nil => exact ⟨by simp [ingestEntries], by simpa [ingestEntries] using h⟩
  | cons e rest ih =>
    cases hl : e.link with
    | none =>
      have := ih pn h
      simpa [ingestEntries, hl] using this
    | some l =>
      by_cases hc : (l != "" && !(pn.contains l)) = true
      · have hpl : pn.contains l = false := by
          have h2 := hc
          simp only [Bool.and_eq_true, Bool.not_eq_true'] at h2
          exact h2.2
        have hlid : l ≠ id := by
          intro heq
          rw [heq, h] at hpl
          simp at hpl
        have hins : (pn.insert l now).contains id = true :=
          Ledger.contains_insert_mono pn id l now h
        have ihh := ih (pn.insert l now) hins
        constructor
        · intro x hx
          simp only [ingestEntries, hl, hc, if_true] at hx
          rcases List.mem_cons.mp hx with rfl | hx'
          · rw [hl]
            intro hx
            exact hlid (Option.some_injective _ hx)
          · exact ihh.1 x hx'
        · simpa [ingestEntries, hl, hc] using ihh.2
      · have := ih pn h
        simpa [ingestEntries, hl, hc] using this

theorem get_rss_feeds_excludes (fetch : String → Except Unit ParsedFeed)
    (now : Int) (urls : List String) (pn : Ledger) (id : String)
    (h : pn.contains id = true) :
    (∀ e ∈ (get_rss_feeds fetch now urls pn).1, e.link ≠ some id) ∧
      ((get_rss_feeds fetch now urls pn).2).contains id = true := by
  induction urls generalizing pn with
  | nil => exact ⟨by simp [get_rss_feeds], by simpa [get_rss_feeds] using h⟩
  | cons url rest ih =>
    cases hf : fetch url with
    | error err =>
      have := ih pn h
      simpa [get_rss_feeds, hf] using this
    | ok feed =>
      by_cases hb : feed.bozo = true
      · have := ih pn h
        simpa [get_rss_feeds, hf, hb] using this
      · have hing := ingestEntries_excludes now feed.entries pn id h
        have ihh := ih (ingestEntries now feed.entries pn).2 hing.2
        constructor
        · intro x hx
          simp only [get_rss_feeds, hf, hb, if_false, Bool.false_eq_true] at hx
          rcases List.mem_append.mp hx with hx' | hx'
          · exact hing.1 x hx'
          · exact ihh.1 x hx'
        · simpa [get_rss_feeds, hf, hb] using ihh.2

theorem ingestEntries_sound (now : Int) (es : List Entry) (pn : Ledger) :
    ((ingestEntries now es pn).1.Pairwise fun a b => a.link ≠ b.link) ∧
    (∀ e ∈ (ingestEntries now es pn).1,
      ∃ l, e.link = some l ∧ ((ingestEntries now es pn).2).contains l = true) ∧
    (∀ k, pn.contains k = true → ((ingestEntries now es pn).2).contains k = true) := by
  induction es generalizing pn with
  | nil => exact ⟨by simp [ingestEntries], by simp [ingestEntries], fun k hk => by
      simpa [ingestEntries] using hk⟩
  | cons e rest ih =>
    cases hl : e.link with
    | none =>
      have := ih pn
      simpa [ingestEntries, hl] using this
    | some l =>
      by_cases hc : (l != "" && !(pn.contains l)) = true
      · have ihh := ih (pn.insert l now)
        have hexcl := ingestEntries_excludes now rest (pn.insert l now) l
          (Ledger.contains_insert_self pn l now)
        refine ⟨?_, ?_, ?_⟩
        · simp only [ingestEntries, hl, hc, if_true]
          refine List.Pairwise.cons ?_ ihh.1
          intro b hb
          rw [hl]
          intro heq
          exact hexcl.1 b hb heq.symm
        · intro x hx
          simp only [ingestEntries, hl, hc, if_true] at hx ⊢
          rcases List.mem_cons.mp hx with rfl | hx'
          · exact ⟨l, hl, hexcl.2⟩
          · exact ihh.2.1 x hx'
        · intro k hk
          simp only [ingestEntries, hl, hc, if_true]
          exact ihh.2.2 k (Ledger.contains_insert_mono pn k l now hk)
      · have := ih pn
        simpa [ingestEntries, hl, hc] using this

theorem get_rss_feeds_sound (fetch : String → Except Unit ParsedFeed)
    (now : Int) (urls : List String) (pn : Ledger) :
    ((get_rss_feeds fetch now urls pn).1.Pairwise fun a b => a.link ≠ b.link) ∧
    (∀ e ∈ (get_rss_feeds fetch now urls pn).1,
      ∃ l, e.link = some l ∧ ((get_rss_feeds fetch now urls pn).2).contains l = true) ∧
    (∀ k, pn.contains k = true →
      ((get_rss_feeds fetch now urls pn).2).contains k = true) := by
  induction urls generalizing pn with
  | nil => exact ⟨by simp [get_rss_feeds], by simp [get_rss_feeds], fun k hk => by
      simpa [get_rss_feeds] using hk⟩
  | cons url rest ih =>
    cases hf : fetch url with
    | error err =>
      have := ih pn
      simpa [get_rss_feeds, hf] using this
    | ok feed =>
      by_cases hb : feed.bozo = true
      · have := ih pn
        simpa [get_rss_feeds, hf, hb] using this
      · have hing := ingestEntries_sound now feed.entries pn
        have ihh := ih (ingestEntries now feed.entries pn).2
        refine ⟨?_, ?_, ?_⟩
        · simp only [get_rss_feeds, hf, hb, if_false, Bool.false_eq_true]
          refine List.pairwise_append.mpr ⟨hing.1, ihh.1, ?_⟩
          intro a ha b hb'
          rcases hing.2.1 a ha with ⟨la, hla, hcont⟩
          have := get_rss_feeds_excludes fetch now rest
            (ingestEntries now feed.entries pn).2 la hcont
          rw [hla]
          intro heq
          exact this.1 b hb' heq.symm
        · intro x hx
          simp only [get_rss_feeds, hf, hb, if_false, Bool.false_eq_true] at hx ⊢
          rcases List.mem_append.mp hx with hx' | hx'
          · rcases hing.2.1 x hx' with ⟨la, hla, hcont⟩
            exact ⟨la, hla, ihh.2.2 la hcont⟩
          · exact ihh.2.1 x hx'
        · intro k hk
          simp only [get_rss_feeds, hf, hb, if_false, Bool.false_eq_true]
          exact ihh.2.2 k (hing.2.2 k hk)

/-! ### Claim theorems -/

/-- C1: if an item identifier is already present in the ledger (here with a
timestamp within the 7-day retention window, as the claim assumes), then
get_rss_feeds over any feed content — in particular content containing an
entry with that identifier — never includes an entry with that identifier
in the returned output batch. -/
theorem ingestion_idempotent (fetch : String → Except Unit ParsedFeed)
    (now t : Int) (urls : List String) (pn : Ledger) (id : String)
    (hmem : pn.lookup id = some t) (_hwin : now - 7 * 86400 < t) :
    ∀ e ∈ (get_rss_feeds fetch now urls pn).1, e.link ≠ some id :=
  (get_rss_feeds_excludes fetch now urls pn id
    (Ledger.lookup_contains pn id t hmem)).1

/-- C1 witness: with "a" in the ledger (timestamp inside the window), a
feed containing an entry with link "a" yields an output batch without it. -/
theorem ingestion_idempotent_witness :
    Ledger.lookup [("a", 604000)] "a" = some 604000 ∧
    (604900 : Int) - 7 * 86400 < 604000 ∧
    ∀ e ∈ (get_rss_feeds
        (fun _ => Except.ok ⟨false, [⟨some "a", "t", none, none⟩, ⟨some "b", "u", none, none⟩]⟩)
        604900 ["url"] [("a", 604000)]).1, e.link ≠ some "a" :=
  ⟨by decide, by decide,
    ingestion_idempotent
      (fun _ => Except.ok ⟨false, [⟨some "a", "t", none, none⟩, ⟨some "b", "u", none, none⟩]⟩)
      604900 604000 ["url"] [("a", 604000)] "a" (by decide) (by decide)⟩

/-- C10: for every list of feed sources and every starting ledger, the
output batch of get_rss_feeds contains no two entries with the same link,
because each included link is inserted into the ledger before the next
entry is checked. -/
theorem ingestion_output_nodup (fetch : String → Except Unit ParsedFeed)
    (now : Int) (urls : List String) (pn : Ledger) :
    (get_rss_feeds fetch now urls pn).1.Pairwise fun a b => a.link ≠ b.link :=
  (get_rss_feeds_sound fetch now urls pn).1

/-- C2 counterexample: fix now = 604900 and retentionDays = 7. The entry
("a", 100) has lastSeenAt exactly at the boundary now - 7*86400 = 100, yet
clean_old_news removes it, while the claim says an entry exactly at the
boundary is present after prune. -/
theorem clean_old_news_boundary_cex :
    (100 : Int) = 604900 - 7 * 86400 ∧
      clean_old_news [("a", 100)] 604900 7 = [] := by
  constructor <;> decide

/-- C2 (amended): prune is a pure function of the ledger and the current
time, an entry strictly within the retention window (lastSeenAt >
now - d*86400) is kept, and an entry at or older than the boundary
(lastSeenAt ≤ now - d*86400, in particular exactly at it) is removed. -/
theorem clean_old_news_spec (pn : Ledger) (now days : Int) (k : String) (v : Int) :
    (k, v) ∈ clean_old_news pn now days ↔ (k, v) ∈ pn ∧ v > now - days * 86400 := by
  simp [clean_old_news, List.mem_filter]

/-- C4: with no generation-service credential configured (unset or empty
OPENAI_API_KEY), filter_ai_news and summarize_news each return an empty
result for any non-empty batch, without raising, leaving the ledger
untouched and issuing no external call. -/
theorem missing_credential_fail_closed (apiKey : Option String)
    (classify : Entry → Except Unit String) (gen : Entry → Except Unit NewsSummary)
    (now : Int) (entries : List Entry) (pn : Ledger)
    (hkey : configured apiKey = false) (_hne : entries ≠ []) :
    filter_ai_news apiKey classify entries = ([], []) ∧
      summarize_news apiKey now gen entries pn = ([], pn, []) := by
  constructor <;> simp [filter_ai_news, summarize_news, hkey]

/-- C4 witness: the fail-closed behavior at a concrete non-empty batch with
the credential unset. -/
theorem missing_credential_fail_closed_witness :
    configured none = false ∧ ([⟨some "a", "t", none, none⟩] : List Entry) ≠ [] ∧
    filter_ai_news none (fun _ => Except.ok "1") [⟨some "a", "t", none, none⟩] = ([], []) ∧
    summarize_news none 0 (fun _ => Except.ok ⟨"o", []⟩)
      [⟨some "a", "t", none, none⟩] [("z", 3)] = ([], [("z", 3)], []) := by
  refine ⟨by decide, by decide, ?_, ?_⟩
  · exact (missing_credential_fail_closed none (fun _ => Except.ok "1")
      (fun _ => Except.ok ⟨"o", []⟩) 0 [⟨some "a", "t", none, none⟩] [("z", 3)]
      (by decide) (by decide)).1
  · exact (missing_credential_fail_closed none (fun _ => Except.ok "1")
      (fun _ => Except.ok ⟨"o", []⟩) 0 [⟨some "a", "t", none, none⟩] [("z", 3)]
      (by decide) (by decide)).2

/-- C5: if the delivery webhook target is not configured, main terminates
at once: its trace of externally visible effects is empty — the ledger is
neither loaded nor saved, no feed is fetched, and no classification,
summarization, or delivery call occurs. -/
theorem webhook_missing_aborts (env : Env)
    (h : configured env.slack_webhook_url = false) : main env = [] := by
  simp [main, h]

/-- C5 witness: the early abort at a concrete environment with no webhook
target. -/
theorem webhook_missing_aborts_witness :
    configured none = false ∧
    main ⟨none, some "key", StoreState.missing, fun _ => some [],
      fun _ => Except.error (), fun _ => Except.ok "1",
      fun _ => Except.ok ⟨"o", []⟩, fun _ => Except.ok 200, 0⟩ = [] :=
  ⟨by decide, webhook_missing_aborts _ (by decide)⟩

theorem summarizeLoop_closed (now : Int) (gen : Entry → Except Unit NewsSummary)
    (entries : List Entry) (pn : Ledger) :
    summarizeLoop now gen entries pn =
      (entries.filterMap (fun e =>
        match gen e, e.link with
        | Except.ok ns, some l => some ⟨e.title, format_notification ns, l⟩
        | _, _ => none),
       entries.foldl (fun acc e =>
        match gen e, e.link with
        | Except.ok _, some l => Ledger.insert acc l now
        | _, _ => acc) pn,
       entries) := by
  induction entries generalizing pn with
  | nil => rfl
  | cons e rest ih =>
    cases hg : gen e with
    | error u =>
      cases u
      cases hl : e.link with
      | none => simp [summarizeLoop, hg, hl, ih]
      | some l => simp [summarizeLoop, hg, hl, ih]
    | ok ns =>
      cases hl : e.link with
      | none => simp [summarizeLoop, hg, hl, ih]
      | some l => simp [summarizeLoop, hg, hl, ih]

theorem summarize_foldl_lookup_preserved (now : Int)
    (gen : Entry → Except Unit NewsSummary) (l : String) (entries : List Entry)
    (pn : Ledger)
    (h : ∀ x ∈ entries, x.link = some l → gen x = Except.error ()) :
    (entries.foldl (fun acc e =>
      match gen e, e.link with
      | Except.ok _, some k => Ledger.insert acc k now
      | _, _ => acc) pn).lookup l = pn.lookup l := by
  induction entries generalizing pn with
  | nil => rfl
  | cons e rest ih =>
    have hrest : ∀ x ∈ rest, x.link = some l → gen x = Except.error () :=
      fun x hx => h x (List.mem_cons_of_mem e hx)
    cases hg : gen e with
    | error u =>
      cases u
      cases hl : e.link with
      | none => simpa [List.foldl_cons, hg, hl] using ih pn hrest
      | some k => simpa [List.foldl_cons, hg, hl] using ih pn hrest
    | ok ns =>
      cases hl : e.link with
      | none => simpa [List.foldl_cons, hg, hl] using ih pn hrest
      | some k =>
        have hkl : k ≠ l := by
          intro heq
          subst heq
          have := h e (List.mem_cons_self e rest) hl
          rw [hg] at this
          cases this
        have hstep := ih (pn.insert k now) hrest
        simp only [List.foldl_cons, hg, hl] at hstep ⊢
        rw [hstep, Ledger.lookup_insert_ne pn l k now (fun hh => hkl hh.symm)]

/-- C3: per-item fault isolation in summarize_news, for every batch and
every configured credential: (i) every entry in the batch is processed (a
generation call is issued for each, in order); (ii) the output consists
exactly of one summary per entry whose generation call succeeded (with a
link), in batch order — so an entry whose call raises, or whose response
does not validate, contributes no summary, while every other entry is
still processed; (iii) the ledger is refreshed exactly at the links of the
succeeding entries; (iv) a failing entry's ledger timestamp is left
unchanged by this stage (whenever no other entry with the same link
succeeded in the batch — in particular always, when the batch's links are
distinct, as ingestion guarantees). The claim's two-entry instance follows
by instantiation (see the witness). -/
theorem summarize_fault_isolation (apiKey : Option String) (now : Int)
    (gen : Entry → Except Unit NewsSummary) (entries : List Entry) (pn : Ledger)
    (hkey : configured apiKey = true) :
    (summarize_news apiKey now gen entries pn).2.2 = entries ∧
    (summarize_news apiKey now gen entries pn).1 = entries.filterMap (fun e =>
      match gen e, e.link with
      | Except.ok ns, some l => some ⟨e.title, format_notification ns, l⟩
      | _, _ => none) ∧
    (summarize_news apiKey now gen entries pn).2.1 = entries.foldl (fun acc e =>
      match gen e, e.link with
      | Except.ok _, some l => Ledger.insert acc l now
      | _, _ => acc) pn ∧
    (∀ e ∈ entries, gen e = Except.error () → ∀ l, e.link = some l →
      (∀ x ∈ entries, x.link = some l → gen x = Except.error ()) →
      ((summarize_news apiKey now gen entries pn).2.1).lookup l = pn.lookup l) := by
  have hrun : summarize_news apiKey now gen entries pn =
      summarizeLoop now gen entries pn := by
    simp [summarize_news, hkey]
  rw [hrun, summarizeLoop_closed]
  refine ⟨rfl, rfl, rfl, ?_⟩
  intro e _ _ l _ hall
  exact summarize_foldl_lookup_preserved now gen l entries pn hall

/-- C3 witness: the claim's "in particular" scenario — a batch of two with
distinct links where the first entry's call raises and the second
succeeds: the output contains exactly one summary (the succeeding
entry's), the ledger is updated for the succeeding entry, the failing
entry's timestamp is unchanged, and both entries were processed. -/
theorem summarize_fault_isolation_witness :
    configured (some "key") = true ∧
    (summarize_news (some "key") 9
      (fun e => if e.title == "bad" then Except.error () else Except.ok ⟨"o", []⟩)
      [⟨some "a", "bad", none, none⟩, ⟨some "b", "good", none, none⟩]
      [("a", 1), ("b", 2)]).1 = [⟨"good", format_notification ⟨"o", []⟩, "b"⟩] ∧
    (summarize_news (some "key") 9
      (fun e => if e.title == "bad" then Except.error () else Except.ok ⟨"o", []⟩)
      [⟨some "a", "bad", none, none⟩, ⟨some "b", "good", none, none⟩]
      [("a", 1), ("b", 2)]).2.1 = [("a", 1), ("b", 9)] ∧
    (summarize_news (some "key") 9
      (fun e => if e.title == "bad" then Except.error () else Except.ok ⟨"o", []⟩)
      [⟨some "a", "bad", none, none⟩, ⟨some "b", "good", none, none⟩]
      [("a", 1), ("b", 2)]).2.2 =
      [⟨some "a", "bad", none, none⟩, ⟨some "b", "good", none, none⟩] ∧
    ((summarize_news (some "key") 9
      (fun e => if e.title == "bad" then Except.error () else Except.ok ⟨"o", []⟩)
      [⟨some "a", "bad", none, none⟩, ⟨some "b", "good", none, none⟩]
      [("a", 1), ("b", 2)]).2.1).lookup "a" =
      Ledger.lookup [("a", 1), ("b", 2)] "a" := by
  have h := summarize_fault_isolation (some "key") 9
    (fun e => if e.title == "bad" then Except.error () else Except.ok ⟨"o", []⟩)
    [⟨some "a", "bad", none, none⟩, ⟨some "b", "good", none, none⟩]
    [("a", 1), ("b", 2)] (by decide)
  refine ⟨by decide, ?_, ?_, h.1, ?_⟩
  · rw [h.2.1]; decide
  · rw [h.2.2.1]; decide
  · refine h.2.2.2 ⟨some "a", "bad", none, none⟩ (by decide) rfl "a" rfl ?_
    intro x hx hxl
    rcases List.mem_cons.mp hx with rfl | hx'
    · rfl
    · rcases List.mem_cons.mp hx' with rfl | hx''
      · simp at hxl
      · simp at hx''

/-- C6 counterexample: a store that exists but whose content the JSON
parser rejects makes load_processed_news raise (json.load is not guarded),
so the load does fail the run instead of yielding an empty ledger. -/
theorem load_processed_news_cex :
    load_processed_news (fun s => if s == "\x7b\x7d" then some [] else none)
      (StoreState.present "not json") = Except.error () := rfl

/-- C6 (amended): load_processed_news returns the persisted mapping when
the store exists and parses, returns an empty mapping when no persisted
state exists, and raises (failing the run) when the store exists but is
malformed. -/
theorem load_processed_news_spec (parse : String → Option Ledger)
    (store : StoreState) :
    (store = StoreState.missing → load_processed_news parse store = Except.ok []) ∧
    (∀ c pn, store = StoreState.present c → parse c = some pn →
      load_processed_news parse store = Except.ok pn) ∧
    (∀ c, store = StoreState.present c → parse c = none →
      load_processed_news parse store = Except.error ()) := by
  refine ⟨fun h => by simp [h, load_processed_news], ?_, ?_⟩
  · intro c pn hs hp
    simp [hs, load_processed_news, hp]
  · intro c hs hp
    simp [hs, load_processed_news, hp]

/-- C6 witness: the three load behaviors at concrete store states, under a
concrete parser that accepts exactly "\x7b\x7d". -/
theorem load_processed_news_spec_witness :
    load_processed_news (fun s => if s == "\x7b\x7d" then some [] else none)
      StoreState.missing = Except.ok [] ∧
    load_processed_news (fun s => if s == "\x7b\x7d" then some [] else none)
      (StoreState.present "\x7b\x7d") = Except.ok [] := by
  constructor
  · exact (load_processed_news_spec (fun s => if s == "\x7b\x7d" then some [] else none)
      StoreState.missing).1 rfl
  · exact (load_processed_news_spec (fun s => if s == "\x7b\x7d" then some [] else none)
      (StoreState.present "\x7b\x7d")).2.1 "\x7b\x7d" [] rfl rfl

/-! ### String lemmas for the formatter -/

theorem data_newline : ("\n" : String).data = ['\n'] := rfl

theorem dropWhile_eq_self_of_head {α : Type} (p : α → Bool) (l : List α) (c : α)
    (hc : l.head? = some c) (hp : p c = false) : l.dropWhile p = l := by
  cases l with
  | nil => simp at hc
  | cons a rest =>
    have ha : a = c := by simpa using hc
    subst ha
    exact List.dropWhile_cons_of_neg (by simp [hp])

theorem pyStripL_append_newline (l : List Char) (c₀ c₁ : Char)
    (hhead : l.head? = some c₀) (h₀ : isPySpace c₀ = false)
    (hlast : l.getLast? = some c₁) (h₁ : isPySpace c₁ = false) :
    (((l ++ ['\n']).dropWhile isPySpace).reverse.dropWhile isPySpace).reverse = l := by
  have hfront : (l ++ ['\n']).dropWhile isPySpace = l ++ ['\n'] := by
    apply dropWhile_eq_self_of_head _ _ c₀ _ h₀
    cases l with
    | nil => simp at hhead
    | cons a rest => simpa using hhead
  rw [hfront, List.reverse_append]
  show ((['\n'] ++ l.reverse).dropWhile isPySpace).reverse = l
  rw [List.singleton_append, List.dropWhile_cons_of_pos (by decide)]
  rw [dropWhile_eq_self_of_head _ _ c₁ (by rw [List.head?_reverse]; exact hlast) h₁]
  exact List.reverse_reverse l

theorem keyPointsTextFrom_data (i : Nat) (p : SummaryPoint)
    (rest : List SummaryPoint) :
    (keyPointsTextFrom i (p :: rest)).data =
      (specJoinLines (specLines i (p :: rest))).data ++ ['\n'] := by
  induction rest generalizing i p with
  | nil =>
    simp [keyPointsTextFrom, specLines, specJoinLines, specLine,
      String.data_append, data_newline]
  | cons q rest' ih =>
    have hih := ih (i + 1) q
    simp only [keyPointsTextFrom, specLines, specJoinLines,
      String.data_append, data_newline] at hih ⊢
    rw [hih]
    simp [specLine, String.data_append]

theorem specLine_data_getLast (i : Nat) (q : SummaryPoint) :
    (specLine i q).data.getLast? = q.description.data.getLast?.or (some '：') := by
  have hsep : ("* ：" : String).data.getLast? = some '：' := rfl
  simp only [specLine, String.data_append, List.getLast?_append, hsep]
  cases q.description.data.getLast? <;> rfl

theorem join_specLines_getLast (i : Nat) (p : SummaryPoint)
    (pts : List SummaryPoint) :
    (specJoinLines (specLines i (p :: pts))).data.getLast? =
      ((p :: pts).getLast?.getD ⟨"", ""⟩).description.data.getLast?.or (some '：') := by
  induction pts generalizing i p with
  | nil => simp [specLines, specJoinLines, specLine_data_getLast]
  | cons q t ih =>
    have hih := ih (i + 1) q
    have hsome : ∃ c, (specJoinLines (specLines (i + 1) (q :: t))).data.getLast? = some c := by
      rw [hih]
      cases hd : ((q :: t).getLast?.getD ⟨"", ""⟩).description.data.getLast? with
      | none => exact ⟨'：', rfl⟩
      | some c => exact ⟨c, rfl⟩
    rcases hsome with ⟨c, hc⟩
    show (specLine i p ++ "\n" ++ specJoinLines (specLines (i + 1) (q :: t))).data.getLast? = _
    simp only [String.data_append, data_newline, List.getLast?_append,
      List.singleton_append]
    have hgd : ((p :: q :: t).getLast?.getD (⟨"", ""⟩ : SummaryPoint)) =
        ((q :: t).getLast?.getD ⟨"", ""⟩) := by
      rw [List.getLast?_cons_cons]
    rw [hgd, ← hih, hc]
    rfl

theorem join_specLines_head (p : SummaryPoint) (pts : List SummaryPoint) :
    (specJoinLines (specLines 1 (p :: pts))).data.head? = some '1' := by
  have h1 : (toString (1 : Nat)).data = ['1'] := rfl
  cases pts with
  | nil =>
    simp [specLines, specJoinLines, specLine, String.data_append, h1]
  | cons q t =>
    simp [specLines, specJoinLines, specLine, String.data_append, h1]

/-- C7 counterexample: for the StructuredSummary with synopsis "o" and the
single key point {title "t", description "d "}, the claim requires the body
"\x60\x60\x60\no\n\x60\x60\x60\n1. *t* ：d " (with the trailing space of
the description kept), but format_notification strips it. -/
theorem format_notification_cex :
    format_notification ⟨"o", [⟨"t", "d "⟩]⟩ = "```\no\n```\n1. *t* ：d" ∧
      format_notification ⟨"o", [⟨"t", "d "⟩]⟩ ≠
        specNotificationBody ⟨"o", [⟨"t", "d "⟩]⟩ ∧
      specNotificationBody ⟨"o", [⟨"t", "d "⟩]⟩ = "```\no\n```\n1. *t* ：d " := by
  refine ⟨rfl, ?_, rfl⟩
  decide

/-- C7 (amended): for every StructuredSummary with at least one key point
whose last key point's description does not end in a whitespace character,
format_notification returns exactly the claimed body: the synopsis as a
code block, followed by one line per key point of the form
"N. *{title}* ：{description}", numbered from 1 in order, joined by
newlines, with no trailing blank line. (In general the code strips
leading/trailing whitespace from the whole key-point block, so trailing
whitespace of the last description is removed, and with zero key points a
trailing newline remains after the code block.) -/
theorem format_notification_spec (ns : NewsSummary) (hne : ns.key_points ≠ [])
    (hlast : lastCharOk ((ns.key_points.getLast?.getD ⟨"", ""⟩).description) = true) :
    format_notification ns = specNotificationBody ns := by
  obtain ⟨o, pts⟩ := ns
  cases pts with
  | nil => cases hne rfl
  | cons p rest =>
    show ("```\n" ++ o ++ "\n```\n" ++ pyStrip (keyPointsTextFrom 1 (p :: rest))) =
      ("```\n" ++ o ++ "\n```\n" ++ specJoinLines (specLines 1 (p :: rest)))
    congr 1
    apply String.ext
    show (((keyPointsTextFrom 1 (p :: rest)).data.dropWhile isPySpace).reverse.dropWhile
        isPySpace).reverse = (specJoinLines (specLines 1 (p :: rest))).data
    rw [keyPointsTextFrom_data 1 p rest]
    have hjoin := join_specLines_getLast 1 p rest
    cases hd : ((p :: rest).getLast?.getD ⟨"", ""⟩).description.data.getLast? with
    | none =>
      refine pyStripL_append_newline _ '1' '：' (join_specLines_head p rest)
        (by decide) ?_ (by decide)
      rw [hjoin, hd]
      rfl
    | some c =>
      have hcok : isPySpace c = false := by
        have := hlast
        rw [lastCharOk] at this
        simp only [hd] at this
        simpa using this
      refine pyStripL_append_newline _ '1' c (join_specLines_head p rest)
        (by decide) ?_ hcok
      rw [hjoin, hd]
      rfl

/-- C7 witness: the spec's own three-point example rendered by
format_notification matches the claimed body exactly. -/
theorem format_notification_spec_witness :
    format_notification
        ⟨"全体の要約", [⟨"性能向上", "a"⟩, ⟨"計算効率化", "b"⟩, ⟨"多言語対応", "c"⟩]⟩ =
      specNotificationBody
        ⟨"全体の要約", [⟨"性能向上", "a"⟩, ⟨"計算効率化", "b"⟩, ⟨"多言語対応", "c"⟩]⟩ ∧
    specNotificationBody
        ⟨"全体の要約", [⟨"性能向上", "a"⟩, ⟨"計算効率化", "b"⟩, ⟨"多言語対応", "c"⟩]⟩ =
      "```\n全体の要約\n```\n1. *性能向上* ：a\n2. *計算効率化* ：b\n3. *多言語対応* ：c" :=
  ⟨format_notification_spec
      ⟨"全体の要約", [⟨"性能向上", "a"⟩, ⟨"計算効率化", "b"⟩, ⟨"多言語対応", "c"⟩]⟩
      (by decide) (by decide), rfl⟩

/-- C8 counterexample: a response with status 204 — a success (2xx) status
— is nevertheless logged as a delivery failure by send_to_slack, because
the code tests status != 200, not "non-2xx". -/
theorem send_to_slack_cex :
    (send_to_slack (fun _ => Except.ok 204) [⟨"t", "s", "l"⟩] (some "hook")).2 =
      [SlackLog.failedStatus 204] ∧ 200 ≤ 204 ∧ 204 < 300 := by
  constructor
  · rfl
  · constructor <;> decide

/-- C8 (amended): with a configured webhook, every message is sent as one
independent delivery request, in order, with no abort and no retry; and a
failure is logged for a message exactly when its response status is not
200 or a transport error occurs. -/
theorem send_to_slack_spec (post : SlackMessage → Except Unit Nat)
    (summaries : List SummaryOut) (url : Option String)
    (h : configured url = true) :
    (send_to_slack post summaries url).1 = summaries.map renderSlackMessage ∧
    (send_to_slack post summaries url).2 = summaries.foldr
      (fun s acc =>
        match post (renderSlackMessage s) with
        | Except.ok code =>
          if code != 200 then SlackLog.failedStatus code :: acc else acc
        | Except.error _ => SlackLog.transportError :: acc) [] := by
  simp only [send_to_slack, h, Bool.not_true, Bool.false_eq_true, if_false]
  induction summaries with
  | nil => exact ⟨rfl, rfl⟩
  | cons s rest ih =>
    simp only [slackLoop, List.map_cons, List.foldr_cons]
    cases hp : post (renderSlackMessage s) with
    | ok code =>
      by_cases hcode : (code != 200) = true
      · simp [hp, hcode, ih.1, ih.2]
      · simp [hp, hcode, ih.1, ih.2]
    | error err => simp [hp, ih.1, ih.2]

/-- C8 witness: two messages, the first accepted with 200 and the second
rejected with 500 — both are posted, in order, and exactly one failure is
logged. -/
theorem send_to_slack_spec_witness :
    configured (some "hook") = true ∧
    (send_to_slack
      (fun m => if m.text == "*<la|a>*\nsa" then Except.ok 200 else Except.ok 500)
      [⟨"a", "sa", "la"⟩, ⟨"b", "sb", "lb"⟩] (some "hook")).1 =
      [renderSlackMessage ⟨"a", "sa", "la"⟩, renderSlackMessage ⟨"b", "sb", "lb"⟩] ∧
    (send_to_slack
      (fun m => if m.text == "*<la|a>*\nsa" then Except.ok 200 else Except.ok 500)
      [⟨"a", "sa", "la"⟩, ⟨"b", "sb", "lb"⟩] (some "hook")).2 =
      [SlackLog.failedStatus 500] := by
  refine ⟨by decide, ?_, ?_⟩
  · rw [(send_to_slack_spec
      (fun m => if m.text == "*<la|a>*\nsa" then Except.ok 200 else Except.ok 500)
      [⟨"a", "sa", "la"⟩, ⟨"b", "sb", "lb"⟩] (some "hook") (by decide)).1]
    rfl
  · rw [(send_to_slack_spec
      (fun m => if m.text == "*<la|a>*\nsa" then Except.ok 200 else Except.ok 500)
      [⟨"a", "sa", "la"⟩, ⟨"b", "sb", "lb"⟩] (some "hook") (by decide)).2]
    rfl

/-- C9 counterexample: a classification response whose content is "1 "
(not the single character "1") is still treated as relevant, because the
code strips whitespace before comparing. -/
theorem filter_ai_news_cex :
    (filter_ai_news (some "key") (fun _ => Except.ok "1 ")
      [⟨some "a", "t", none, none⟩]).1 = [⟨some "a", "t", none, none⟩] ∧
    ("1 " : String) ≠ "1" := by
  constructor
  · rfl
  · decide

/-- C9 (amended): with a configured credential, an entry is kept as
relevant exactly when its external call succeeds and the response content,
stripped of leading/trailing whitespace, equals "1"; any other response
content and any call failure drop (only) that item, and every item in the
batch is still processed (a call is issued for each). -/
theorem filter_ai_news_spec (apiKey : Option String)
    (classify : Entry → Except Unit String) (entries : List Entry)
    (h : configured apiKey = true) :
    (filter_ai_news apiKey classify entries).1 = entries.filter
      (fun e =>
        match classify e with
        | Except.ok content => pyStrip content == "1"
        | Except.error _ => false) ∧
    (filter_ai_news apiKey classify entries).2 = entries := by
  simp only [filter_ai_news, h, Bool.not_true, Bool.false_eq_true, if_false]
  induction entries with
  | nil => exact ⟨rfl, rfl⟩
  | cons e rest ih =>
    simp only [filterLoop, List.filter_cons]
    cases hc : classify e with
    | ok content =>
      by_cases hs : (pyStrip content == "1") = true
      · simp [hc, hs, ih.1, ih.2]
      · simp [hc, hs, ih.1, ih.2]
    | error err => simp [hc, ih.1, ih.2]

/-- C9 witness: a three-entry batch whose classifier raises on the first,
answers " 1" (stripped to "1") on the second, and "no" on the third: only
the second is kept, and all three are processed. -/
theorem filter_ai_news_spec_witness :
    configured (some "key") = true ∧
    (filter_ai_news (some "key")
      (fun e => if e.title == "x" then Except.error ()
        else if e.title == "y" then Except.ok " 1" else Except.ok "no")
      [⟨some "a", "x", none, none⟩, ⟨some "b", "y", none, none⟩,
        ⟨some "c", "z", none, none⟩]).1 = [⟨some "b", "y", none, none⟩] ∧
    (filter_ai_news (some "key")
      (fun e => if e.title == "x" then Except.error ()
        else if e.title == "y" then Except.ok " 1" else Except.ok "no")
      [⟨some "a", "x", none, none⟩, ⟨some "b", "y", none, none⟩,
        ⟨some "c", "z", none, none⟩]).2 =
      [⟨some "a", "x", none, none⟩, ⟨some "b", "y", none, none⟩,
        ⟨some "c", "z", none, none⟩] := by
  refine ⟨by decide, ?_, ?_⟩
  · rw [(filter_ai_news_spec (some "key")
      (fun e => if e.title == "x" then Except.error ()
        else if e.title == "y" then Except.ok " 1" else Except.ok "no")
      [⟨some "a", "x", none, none⟩, ⟨some "b", "y", none, none⟩,
        ⟨some "c", "z", none, none⟩] (by decide)).1]
    rfl
  · rw [(filter_ai_news_spec (some "key")
      (fun e => if e.title == "x" then Except.error ()
        else if e.title == "y" then Except.ok " 1" else Except.ok "no")
      [⟨some "a", "x", none, none⟩, ⟨some "b", "y", none, none⟩,
        ⟨some "c", "z", none, none⟩] (by decide)).2]

end NewsPipeline
